import Mathlib

/-
Verification of the paperless-ngx "secretary" webhook responder.

Shallow embedding of src/api/pr.py: the diff classifier
(get_responsible_teams, get_change_size), the pull-request-opened handler
(opened_pr) and the HTTP entry point (main). Handlers are modelled as pure
functions from their inputs (submitter login, organization member list,
parsed diff, inbound event) to the ordered trace of outbound GitHub API
calls they issue; print statements are local logging and are not modelled.
Python sets are modelled as Finset String, so the label payload and the
reviewer payload (which Python builds by iterating a set in unspecified
order) are modelled as the underlying sets.
-/

namespace Secretary

/-- Embeds the Python string method startswith, as used on change.path:
a character-list prefix test. -/
def starts_with (s pre : String) : Bool := pre.data.isPrefixOf s.data

/-- Helper for substring containment on character lists: true when sub
occurs contiguously in the second argument. -/
def hasSub (sub : List Char) : List Char → Bool
  | [] => sub.isPrefixOf []
  | c :: cs => sub.isPrefixOf (c :: cs) || hasSub sub cs

/-- Embeds the Python operator in on strings ("dependabot" in user):
substring containment, not exact equality. -/
def contains_sub (s sub : String) : Bool := hasSub sub.data s.data

/-- Embeds the Python string method strip(): drop leading and trailing
whitespace. -/
def py_strip (s : String) : String :=
  String.mk (((s.data.dropWhile Char.isWhitespace).reverse.dropWhile Char.isWhitespace).reverse)

/-- Embeds the expression path.split(".")[-1] from get_change_size: the
segment of path after the final dot, or path itself when it has no dot
(the last element of the split always exists since split never returns an
empty list). -/
def ext_of (path : String) : String :=
  String.mk ((path.data.reverse.takeWhile (fun c => c != '.')).reverse)

/-- A line of a unidiff hunk, as exposed by the diff-parsing library:
an added flag and the line text. Removed and context lines carry
is_added = false. -/
structure Line where
  is_added : Bool
  value : String
deriving DecidableEq

/-- A hunk: an ordered list of lines. -/
structure Hunk where
  lines : List Line
deriving DecidableEq

/-- One changed file of the parsed diff: its path and its hunks. -/
structure FileChange where
  path : String
  hunks : List Hunk
deriving DecidableEq

/-- The rule table from get_responsible_teams: (path prefix, team). -/
def responsible : List (String × String) :=
  [("src/", "backend"),
   ("requirements.txt", "backend"),
   ("src-ui/", "frontend"),
   ("docs/", "documentation"),
   (".github/", "ci-cd")]

/-- Embeds get_responsible_teams: for every file change and every rule,
if the path starts with the rule prefix, add the team to the set. -/
def get_responsible_teams (diff : List FileChange) : Finset String :=
  diff.foldl
    (fun teams change =>
      responsible.foldl
        (fun ts rt => if starts_with change.path rt.1 then insert rt.2 ts else ts)
        teams)
    ∅

/-- The ignore_types list from get_change_size. -/
def ignore_types : List String := ["rst", "md", "txt", "lock"]

/-- The per-line condition from get_change_size:
line.is_added and len(line.value.strip()) > 2. -/
def line_counted (l : Line) : Bool :=
  l.is_added && decide ((py_strip l.value).length > 2)

/-- Embeds get_change_size: nested loops over files, hunks and lines,
incrementing the counter for every counted line of a file whose
extension is not ignored. -/
def get_change_size (diff : List FileChange) : Nat :=
  diff.foldl
    (fun size change =>
      if ext_of change.path ∈ ignore_types then size
      else
        change.hunks.foldl
          (fun s hunk =>
            hunk.lines.foldl
              (fun s2 line => if line_counted line then s2 + 1 else s2)
              s)
          size)
    0

/-- The review-conditions sentence chosen when small_change holds. -/
def review_conditions_small : String :=
  "Since this seems to be a small change, only a single contributor has to review your changes."

/-- The review-conditions sentence chosen when small_change fails. -/
def review_conditions_nontrivial : String :=
  "Since this is a non-trivial change, a review from at least two contributors is required."

/-- Embeds new_pr_template.format(user=..., review_conditions=...):
the comment body with both placeholders substituted. -/
def new_pr_template (user review_conditions : String) : String :=
  "\nHello @" ++ user ++ ",\n\nthank you very much for submitting this PR to us!\n\nThis is what will happen next:\n\n1. My robotic colleagues will check your changes to see if they break anything. You can see the progress below.\n2. Once that is finished, human contributors from paperless-ngx review your changes. " ++ review_conditions ++ "\n3. Please improve anything that comes up during the review until your pull request gets approved.\n4. Your pull request will be merged into the `dev` branch. Changes there will be tested further.\n5. Eventually, changes from you and other contributors will be merged into `main` and a new release will be made.\n\nPlease allow up to 7 days for an initial review. We\x27re all very excited about new pull requests but we only do this as a hobby.\nIf any action will be required by you, please reply within a month.\n"

/-- The bot test from opened_pr:
"dependabot" in user or "paperless-l10n" in user or "github-actions" in user. -/
def is_bot_user (user : String) : Bool :=
  contains_sub user "dependabot" || contains_sub user "paperless-l10n" ||
    contains_sub user "github-actions"

/-- The boolean small_change from opened_pr: get_change_size(patch) < 10. -/
def small_change (patch : List FileChange) : Bool :=
  decide (get_change_size patch < 10)

/-- The size label opened_pr appends first: "small-change" when
small_change holds, else "non-trivial". -/
def size_label (patch : List FileChange) : String :=
  if small_change patch then "small-change" else "non-trivial"

/-- The label payload of the labels POST: the size label together with the
responsible teams (Python builds the list [size label] + list(teams); the
set of labels is modelled since the iteration order of a Python set is
unspecified). -/
def labels_payload (patch : List FileChange) : Finset String :=
  insert (size_label patch) (get_responsible_teams patch)

/-- The review_conditions sentence opened_pr places into the comment. -/
def review_conditions (patch : List FileChange) : String :=
  if small_change patch then review_conditions_small else review_conditions_nontrivial

/-- The team_reviewers payload of the requested_reviewers POST:
every responsible team mapped through lambda x: f"paperless-ngx/{x}". -/
def team_reviewers (patch : List FileChange) : Finset String :=
  (get_responsible_teams patch).image (fun x => "paperless-ngx/" ++ x)

/-- One outbound GitHub API call of the handlers, with its payload. -/
inductive ApiCall where
  | tokenExchange
  | getPatch
  | getMembers
  | postLabels (labels : Finset String)
  | postReviewers (team_reviewers : Finset String)
  | postComment (body : String)
deriving DecidableEq

/-- The write calls (POSTs that change state on GitHub); the patch fetch,
the member listing and the installation-token exchange are reads. -/
def isWrite : ApiCall → Bool
  | ApiCall.postLabels _ => true
  | ApiCall.postReviewers _ => true
  | ApiCall.postComment _ => true
  | _ => false

/-- Embeds opened_pr as the ordered trace of its outbound API calls:
fetch the patch, list the organization members, then return early for a
recognized bot login; otherwise post the labels, always post the reviewer
request, and post the welcome comment unless the submitter is an
organization member. -/
def opened_pr (user : String) (members : List String) (patch : List FileChange) :
    List ApiCall :=
  ApiCall.getPatch :: ApiCall.getMembers ::
    (if is_bot_user user then []
     else
       ApiCall.postLabels (labels_payload patch) ::
         ApiCall.postReviewers (team_reviewers patch) ::
           (if user ∈ members then []
            else [ApiCall.postComment (new_pr_template user (review_conditions patch))]))

/-- The inbound webhook event as seen by main after sansio parsing: the
event type, the action, and for pull_request events the submitter login
and the parsed patch. -/
structure Event where
  event : String
  action : String
  user : String
  patch : List FileChange

/-- Embeds main (the /api/pr endpoint) on its non-exception paths, as the
pair (HTTP status, ordered trace of outbound API calls): the
installation-token exchange happens first, before the event type is
inspected; a ping event then returns 200 with no further call; a
pull_request/opened event is dispatched to opened_pr; every other event
is a no-op. All non-exception paths return 200 (failures return 500 and
are not modelled). -/
def main (members : List String) (ev : Event) : Nat × List ApiCall :=
  (200,
    ApiCall.tokenExchange ::
      (if ev.event == "ping" then []
       else if ev.event == "pull_request" && ev.action == "opened" then
         opened_pr ev.user members ev.patch
       else []))

/-- Modelled from the spec: the spec statement of the change-size count
(the number of added lines with more than 2 significant characters across
files whose extension is not ignored), used to compare get_change_size
against the spec wording. -/
def spec_change_size (diff : List FileChange) : Nat :=
  ((diff.filter (fun c => decide (ext_of c.path ∉ ignore_types))).map
    (fun c =>
      (c.hunks.map
        (fun h =>
          (h.lines.filter
            (fun l => l.is_added && decide ((py_strip l.value).length > 2))).length)).sum)).sum

/-- A concrete two-file diff: src/app.py with 15 significant added lines
and src-ui/index.ts with 3, used for the scenario checks. -/
def c7_diff : List FileChange :=
  [⟨"src/app.py", [⟨List.replicate 15 ⟨true, "abcd"⟩⟩]⟩,
   ⟨"src-ui/index.ts", [⟨List.replicate 3 ⟨true, "abcd"⟩⟩]⟩]

/-- A concrete inbound ping event. -/
def ping_event : Event := ⟨"ping", "", "someone", []⟩

/-- Significant added lines of one hunk. -/
def hunk_count (h : Hunk) : Nat := h.lines.countP line_counted

/-- Contribution of one file change to get_change_size. -/
def change_count (c : FileChange) : Nat :=
  if ext_of c.path ∈ ignore_types then 0 else (c.hunks.map hunk_count).sum

end Secretary

namespace Secretary

/-- Rebuilding a string from its character list is the identity. -/
lemma string_mk_data (s : String) : String.mk s.data = s := by cases s; rfl

/-- A left fold that adds a contribution per element is the sum of the
mapped contributions. -/
lemma foldl_add_eq {α : Type} (f : α → Nat) : ∀ (l : List α) (s : Nat),
    l.foldl (fun acc x => acc + f x) s = s + (l.map f).sum := by
  intro l
  induction l with
  | nil => intro s; simp
  | cons x xs ih =>
    intro s
    rw [List.foldl_cons, ih]
    simp [Nat.add_assoc]

/-- The innermost loop of get_change_size counts the lines satisfying
line_counted. -/
lemma lines_foldl_count (lines : List Line) : ∀ s : Nat,
    lines.foldl (fun s2 line => if line_counted line then s2 + 1 else s2) s
      = s + lines.countP line_counted := by
  induction lines with
  | nil => intro s; simp
  | cons l ls ih =>
    intro s
    by_cases h : line_counted l = true
    · rw [List.foldl_cons, if_pos h, ih, List.countP_cons, if_pos h]
      omega
    · rw [List.foldl_cons, if_neg h, ih, List.countP_cons, if_neg h]
      omega

/-- The hunk loop of get_change_size adds the per-hunk counts. -/
lemma hunks_foldl_count (hunks : List Hunk) (s : Nat) :
    hunks.foldl
      (fun s h =>
        h.lines.foldl (fun s2 line => if line_counted line then s2 + 1 else s2) s)
      s
      = s + (hunks.map hunk_count).sum := by
  have hfun : (fun (s : Nat) (h : Hunk) =>
      h.lines.foldl (fun s2 line => if line_counted line then s2 + 1 else s2) s)
      = fun s h => s + hunk_count h := by
    funext s h
    rw [lines_foldl_count]
    rfl
  rw [hfun, foldl_add_eq]

/-- The per-file step of get_change_size adds change_count of the file. -/
lemma diff_step_eq : (fun (size : Nat) (change : FileChange) =>
      if ext_of change.path ∈ ignore_types then size
      else
        change.hunks.foldl
          (fun s hunk =>
            hunk.lines.foldl (fun s2 line => if line_counted line then s2 + 1 else s2) s)
          size)
      = fun size change => size + change_count change := by
  funext size change
  by_cases h : ext_of change.path ∈ ignore_types
  · rw [if_pos h]
    simp [change_count, h]
  · rw [if_neg h, hunks_foldl_count]
    simp [change_count, h]

/-- get_change_size is the sum of the per-file contributions. -/
lemma get_change_size_eq (diff : List FileChange) :
    get_change_size diff = (diff.map change_count).sum := by
  unfold get_change_size
  rw [diff_step_eq, foldl_add_eq]
  exact Nat.zero_add _

/-- hunk_count as the length of the filtered line list. -/
lemma hunk_count_eq_filter (h : Hunk) :
    hunk_count h
      = (h.lines.filter
          (fun l => l.is_added && decide ((py_strip l.value).length > 2))).length := by
  unfold hunk_count
  rw [List.countP_eq_length_filter]
  rfl

/-- The spec form of the per-hunk count agrees with hunk_count. -/
lemma map_hunk_eq (hs : List Hunk) :
    hs.map
      (fun h =>
        (h.lines.filter
          (fun l => l.is_added && decide ((py_strip l.value).length > 2))).length)
      = hs.map hunk_count := by
  induction hs with
  | nil => rfl
  | cons h hs ih => rw [List.map_cons, List.map_cons, ih, hunk_count_eq_filter]

/-- get_change_size agrees with the spec statement of the count. -/
lemma get_change_size_eq_spec (diff : List FileChange) :
    get_change_size diff = spec_change_size diff := by
  rw [get_change_size_eq]
  induction diff with
  | nil => rfl
  | cons c cs ih =>
    by_cases h : ext_of c.path ∈ ignore_types
    · have hp : decide (ext_of c.path ∉ ignore_types) = false := by simp [h]
      have hc : change_count c = 0 := by simp [change_count, h]
      rw [List.map_cons, List.sum_cons, hc, Nat.zero_add, ih]
      unfold spec_change_size
      rw [List.filter_cons]
      simp only [hp]
      simp
    · have hp : decide (ext_of c.path ∉ ignore_types) = true := by simp [h]
      have hc : change_count c = (c.hunks.map hunk_count).sum := by
        simp [change_count, h]
      rw [List.map_cons, List.sum_cons, hc, ih]
      unfold spec_change_size
      rw [List.filter_cons]
      simp only [hp, if_true, List.map_cons, List.sum_cons]
      rw [map_hunk_eq]

/-- Membership in the inner rule fold of get_responsible_teams: the
accumulator plus every team whose prefix matches the path. -/
lemma mem_rules_foldl (path : String) (rules : List (String × String)) :
    ∀ (acc : Finset String) (t : String),
      (t ∈ rules.foldl
        (fun ts rt => if starts_with path rt.1 then insert rt.2 ts else ts) acc)
        ↔ t ∈ acc ∨ ∃ rt ∈ rules, starts_with path rt.1 = true ∧ rt.2 = t := by
  induction rules with
  | nil => intro acc t; simp
  | cons r rs ih =>
    intro acc t
    rw [List.foldl_cons]
    by_cases h : starts_with path r.1 = true
    · rw [if_pos h, ih]
      simp only [Finset.mem_insert, List.mem_cons]
      constructor
      · rintro ((rfl | hacc) | ⟨rt, hrt, hsw, h2⟩)
        · exact Or.inr ⟨r, Or.inl rfl, h, rfl⟩
        · exact Or.inl hacc
        · exact Or.inr ⟨rt, Or.inr hrt, hsw, h2⟩
      · rintro (hacc | ⟨rt, (rfl | hrt), hsw, h2⟩)
        · exact Or.inl (Or.inr hacc)
        · exact Or.inl (Or.inl h2.symm)
        · exact Or.inr ⟨rt, hrt, hsw, h2⟩
    · rw [if_neg h, ih]
      simp only [List.mem_cons]
      constructor
      · rintro (hacc | ⟨rt, hrt, hsw, h2⟩)
        · exact Or.inl hacc
        · exact Or.inr ⟨rt, Or.inr hrt, hsw, h2⟩
      · rintro (hacc | ⟨rt, (rfl | hrt), hsw, h2⟩)
        · exact Or.inl hacc
        · exact absurd hsw h
        · exact Or.inr ⟨rt, hrt, hsw, h2⟩

/-- A team is responsible exactly when some file change matches some rule
with that team. -/
lemma mem_get_responsible_teams (diff : List FileChange) (t : String) :
    t ∈ get_responsible_teams diff
      ↔ ∃ c ∈ diff, ∃ rt ∈ responsible, starts_with c.path rt.1 = true ∧ rt.2 = t := by
  unfold get_responsible_teams
  suffices hgen : ∀ acc : Finset String,
      (t ∈ diff.foldl
        (fun teams change =>
          responsible.foldl
            (fun ts rt => if starts_with change.path rt.1 then insert rt.2 ts else ts)
            teams)
        acc)
        ↔ t ∈ acc
          ∨ ∃ c ∈ diff, ∃ rt ∈ responsible, starts_with c.path rt.1 = true ∧ rt.2 = t by
    rw [hgen ∅]
    simp
  induction diff with
  | nil => intro acc; simp
  | cons c cs ih =>
    intro acc
    rw [List.foldl_cons, ih, mem_rules_foldl]
    simp only [List.mem_cons]
    constructor
    · rintro ((hacc | ⟨rt, hrt, hsw, h2⟩) | ⟨c2, hc2, rt, hrt, hsw, h2⟩)
      · exact Or.inl hacc
      · exact Or.inr ⟨c, Or.inl rfl, rt, hrt, hsw, h2⟩
      · exact Or.inr ⟨c2, Or.inr hc2, rt, hrt, hsw, h2⟩
    · rintro (hacc | ⟨c2, (rfl | hc2), rt, hrt, hsw, h2⟩)
      · exact Or.inl (Or.inl hacc)
      · exact Or.inl (Or.inr ⟨rt, hrt, hsw, h2⟩)
      · exact Or.inr ⟨c2, hc2, rt, hrt, hsw, h2⟩

end Secretary

namespace Secretary

/-- The two review-conditions sentences differ. -/
lemma review_sentences_ne : review_conditions_small ≠ review_conditions_nontrivial := by
  decide

/-- Claim C1 fails on the code: for the dependency-bot submitter the handler
issues no write at all, so no label set [dependencies] is produced; likewise
the translation bot receives no [skip-changelog, translation] labels. -/
theorem C1_counterexample :
    (opened_pr "dependabot[bot]" [] []).filter isWrite = []
    ∧ ApiCall.postLabels {"dependencies"} ∉ opened_pr "dependabot[bot]" [] []
    ∧ (opened_pr "paperless-l10n" [] []).filter isWrite = []
    ∧ ApiCall.postLabels {"skip-changelog", "translation"} ∉ opened_pr "paperless-l10n" [] [] := by
  refine ⟨by decide, by decide, by decide, by decide⟩

/-- Claim C1 (amended): for every pull-request-opened event whose submitter
login is recognized as a bot (dependency-update, translation or
github-actions), the handler returns early and issues no outbound write at
all: no label call, no comment, no reviewer request, regardless of the diff. -/
theorem C1_bot_no_writes (user : String) (members : List String) (patch : List FileChange)
    (h : is_bot_user user = true) :
    (opened_pr user members patch).filter isWrite = [] := by
  simp [opened_pr, h, isWrite]

/-- Witness for C1 at the concrete bot login dependabot[bot]. -/
theorem C1_bot_no_writes_witness :
    is_bot_user "dependabot[bot]" = true
    ∧ (opened_pr "dependabot[bot]" ["alice"] c7_diff).filter isWrite = [] :=
  ⟨by decide, C1_bot_no_writes "dependabot[bot]" ["alice"] c7_diff (by decide)⟩

/-- Claim C2 fails on the code: on an empty diff the responsible-team set is
empty, yet the reviewer request is still posted, with an empty team list. -/
theorem C2_counterexample :
    get_responsible_teams ([] : List FileChange) = ∅
    ∧ ApiCall.postReviewers ∅ ∈ opened_pr "alice" [] [] := by
  refine ⟨by decide, by decide⟩

/-- Claim C2 (amended): for every pull-request-opened event not overridden by
a bot identity, the reviewer request (ResponsibleTeams mapped to the handle
paperless-ngx/<team>) is posted unconditionally, also when ResponsibleTeams
is empty; an empty ResponsibleTeams yields an empty reviewer list. -/
theorem C2_reviewers_always_posted (user : String) (members : List String)
    (patch : List FileChange) (h : is_bot_user user = false) :
    ApiCall.postReviewers (team_reviewers patch) ∈ opened_pr user members patch
    ∧ (get_responsible_teams patch = ∅ → team_reviewers patch = ∅) := by
  constructor
  · by_cases hm : user ∈ members <;> simp [opened_pr, h, hm]
  · intro he
    simp [team_reviewers, he]

/-- Witness for C2 at a concrete non-bot submitter and the empty diff. -/
theorem C2_reviewers_always_posted_witness :
    ApiCall.postReviewers (team_reviewers []) ∈ opened_pr "alice" [] []
    ∧ (get_responsible_teams [] = ∅ → team_reviewers [] = ∅) :=
  C2_reviewers_always_posted "alice" [] [] (by decide)

/-- Claim C3 fails on the code: for an organization-member submitter the
write trace holds both the label call and the reviewer request, so the label
write is not the only outbound write. -/
theorem C3_counterexample :
    "alice" ∈ ["alice"]
    ∧ (opened_pr "alice" ["alice"] []).filter isWrite =
        [ApiCall.postLabels {"small-change"}, ApiCall.postReviewers ∅] := by
  refine ⟨by decide, by decide⟩

/-- Claim C3 (amended): for every pull-request-opened event whose non-bot
submitter is a verified member of the owning organization, no comment is
posted, and the outbound writes are exactly the label call followed by the
reviewer request. -/
theorem C3_member_writes (user : String) (members : List String) (patch : List FileChange)
    (hb : is_bot_user user = false) (hm : user ∈ members) :
    (opened_pr user members patch).filter isWrite =
      [ApiCall.postLabels (labels_payload patch), ApiCall.postReviewers (team_reviewers patch)] := by
  simp [opened_pr, hb, hm, isWrite]

/-- Witness for C3 at a concrete member submitter and diff. -/
theorem C3_member_writes_witness :
    (opened_pr "alice" ["alice"] c7_diff).filter isWrite =
      [ApiCall.postLabels (labels_payload c7_diff), ApiCall.postReviewers (team_reviewers c7_diff)] :=
  C3_member_writes "alice" ["alice"] c7_diff (by decide) (by decide)

/-- Claim C4: the size classification is small-change exactly when the change
size is strictly below the threshold 10 and non-trivial otherwise (so a diff
scoring exactly 10 is non-trivial and one scoring 9 is small-change), the
chosen size label selects the matching review-conditions sentence, and that
sentence is substituted into the posted comment body. -/
theorem C4_threshold (patch : List FileChange) :
    (size_label patch = "small-change" ↔ get_change_size patch < 10)
    ∧ (size_label patch = "non-trivial" ↔ 10 ≤ get_change_size patch)
    ∧ (review_conditions patch = review_conditions_small ↔ size_label patch = "small-change")
    ∧ (review_conditions patch = review_conditions_nontrivial ↔ size_label patch = "non-trivial")
    ∧ (∀ user members, is_bot_user user = false → user ∉ members →
        ApiCall.postComment (new_pr_template user (review_conditions patch))
          ∈ opened_pr user members patch) := by
  refine ⟨?_, ?_, ?_, ?_, ?_⟩
  · by_cases h : get_change_size patch < 10
    · simp [size_label, small_change, h]
    · simp [size_label, small_change, h]
  · by_cases h : get_change_size patch < 10
    · simp [size_label, small_change, h]
    · simp [size_label, small_change, h]
      omega
  · by_cases h : get_change_size patch < 10
    · simp [size_label, small_change, review_conditions, h]
    · simp [size_label, small_change, review_conditions, h]
      exact fun hh => review_sentences_ne hh.symm
  · by_cases h : get_change_size patch < 10
    · simp [size_label, small_change, review_conditions, h]
      exact review_sentences_ne
    · simp [size_label, small_change, review_conditions, h]
  · intro user members hb hm
    simp [opened_pr, hb, hm]

/-- Witness for C4 at the empty diff and a concrete submitter. -/
theorem C4_threshold_witness :
    (size_label [] = "small-change" ↔ get_change_size [] < 10)
    ∧ ApiCall.postComment (new_pr_template "alice" (review_conditions []))
        ∈ opened_pr "alice" [] [] :=
  ⟨(C4_threshold []).1,
   (C4_threshold []).2.2.2.2 "alice" [] (by decide) (by decide)⟩

/-- Claim C5: get_change_size returns exactly the number of added lines, in
hunks of file changes whose extension is not in the ignored set, whose
stripped content is longer than 2 characters; it is 0 on the empty diff, when
every extension is ignored, and when every added line strips to at most 2
characters. -/
theorem C5_change_size_spec (diff : List FileChange) :
    get_change_size diff = spec_change_size diff
    ∧ get_change_size ([] : List FileChange) = 0
    ∧ ((∀ c ∈ diff, ext_of c.path ∈ ignore_types) → get_change_size diff = 0)
    ∧ ((∀ c ∈ diff, ∀ h ∈ c.hunks, ∀ l ∈ h.lines,
          l.is_added = true → (py_strip l.value).length ≤ 2) →
        get_change_size diff = 0) := by
  refine ⟨get_change_size_eq_spec diff, rfl, ?_, ?_⟩
  · intro hign
    rw [get_change_size_eq]
    apply List.sum_eq_zero
    intro x hx
    obtain ⟨c, hc, rfl⟩ := List.mem_map.mp hx
    simp [change_count, hign c hc]
  · intro hsmall
    rw [get_change_size_eq]
    apply List.sum_eq_zero
    intro x hx
    obtain ⟨c, hc, rfl⟩ := List.mem_map.mp hx
    by_cases hig : ext_of c.path ∈ ignore_types
    · simp [change_count, hig]
    · rw [change_count, if_neg hig]
      apply List.sum_eq_zero
      intro y hy
      obtain ⟨hk, hh, rfl⟩ := List.mem_map.mp hy
      rw [hunk_count, List.countP_eq_zero]
      intro a ha
      unfold line_counted
      cases hadd : a.is_added
      · simp
      · simp only [Bool.true_and]
        have := hsmall c hc hk hh a ha hadd
        simp
        omega

/-- Witness for C5 at a diff whose only file has the ignored extension md. -/
theorem C5_change_size_spec_witness :
    get_change_size [⟨"README.md", [⟨[⟨true, "hello world"⟩]⟩]⟩] = 0 :=
  (C5_change_size_spec [⟨"README.md", [⟨[⟨true, "hello world"⟩]⟩]⟩]).2.2.1 (by decide)

end Secretary

namespace Secretary

/-- Claim C6: the responsible teams are a subset of the set containing
backend, frontend, documentation and ci-cd; paths starting with src/ or
requirements.txt contribute backend, src-ui/ frontend, docs/ documentation,
.github/ ci-cd; and the result is empty exactly when no file path starts
with any configured prefix. -/
theorem C6_responsible_teams (diff : List FileChange) :
    get_responsible_teams diff ⊆ ({"backend", "frontend", "documentation", "ci-cd"} : Finset String)
    ∧ (∀ c ∈ diff, starts_with c.path "src/" = true → "backend" ∈ get_responsible_teams diff)
    ∧ (∀ c ∈ diff, starts_with c.path "requirements.txt" = true →
        "backend" ∈ get_responsible_teams diff)
    ∧ (∀ c ∈ diff, starts_with c.path "src-ui/" = true →
        "frontend" ∈ get_responsible_teams diff)
    ∧ (∀ c ∈ diff, starts_with c.path "docs/" = true →
        "documentation" ∈ get_responsible_teams diff)
    ∧ (∀ c ∈ diff, starts_with c.path ".github/" = true →
        "ci-cd" ∈ get_responsible_teams diff)
    ∧ (get_responsible_teams diff = ∅
        ↔ ∀ c ∈ diff, ∀ rt ∈ responsible, starts_with c.path rt.1 = false) := by
  refine ⟨?_, ?_, ?_, ?_, ?_, ?_, ?_⟩
  · intro t ht
    rw [mem_get_responsible_teams] at ht
    obtain ⟨c, hc, rt, hrt, hsw, rfl⟩ := ht
    simp only [responsible, List.mem_cons, List.not_mem_nil, or_false] at hrt
    rcases hrt with rfl | rfl | rfl | rfl | rfl <;> decide
  · intro c hc hsw
    rw [mem_get_responsible_teams]
    exact ⟨c, hc, ("src/", "backend"), by decide, hsw, rfl⟩
  · intro c hc hsw
    rw [mem_get_responsible_teams]
    exact ⟨c, hc, ("requirements.txt", "backend"), by decide, hsw, rfl⟩
  · intro c hc hsw
    rw [mem_get_responsible_teams]
    exact ⟨c, hc, ("src-ui/", "frontend"), by decide, hsw, rfl⟩
  · intro c hc hsw
    rw [mem_get_responsible_teams]
    exact ⟨c, hc, ("docs/", "documentation"), by decide, hsw, rfl⟩
  · intro c hc hsw
    rw [mem_get_responsible_teams]
    exact ⟨c, hc, (".github/", "ci-cd"), by decide, hsw, rfl⟩
  · rw [Finset.eq_empty_iff_forall_not_mem]
    constructor
    · intro hnone c hc rt hrt
      cases hb : starts_with c.path rt.1
      · rfl
      · exact absurd (mem_get_responsible_teams diff rt.2 |>.mpr ⟨c, hc, rt, hrt, hb, rfl⟩)
          (hnone rt.2)
    · intro hall t
      rw [mem_get_responsible_teams]
      rintro ⟨c, hc, rt, hrt, hsw, rfl⟩
      rw [hall c hc rt hrt] at hsw
      exact Bool.false_ne_true hsw

/-- Witness for C6 at concrete one-file diffs. -/
theorem C6_responsible_teams_witness :
    "documentation" ∈ get_responsible_teams [⟨"docs/index.md", []⟩]
    ∧ (get_responsible_teams [⟨"LICENSE", []⟩] = ∅
        ↔ ∀ c ∈ [(⟨"LICENSE", []⟩ : FileChange)], ∀ rt ∈ responsible,
            starts_with c.path rt.1 = false) :=
  ⟨(C6_responsible_teams [⟨"docs/index.md", []⟩]).2.2.2.2.1 ⟨"docs/index.md", []⟩ (by decide)
      (by decide),
   (C6_responsible_teams [⟨"LICENSE", []⟩]).2.2.2.2.2.2⟩

/-- Claim C7: the two-file scenario scores 15 + 3 = 18 (sizes add across
files), the label payload is exactly the set with non-trivial, backend and
frontend, and a path under src-ui/ does not match the src/ prefix. -/
theorem C7_scenario :
    get_change_size c7_diff = 18
    ∧ labels_payload c7_diff = {"non-trivial", "backend", "frontend"}
    ∧ starts_with "src-ui/index.ts" "src/" = false
    ∧ get_change_size [⟨"src/app.py", [⟨List.replicate 15 ⟨true, "abcd"⟩⟩]⟩] = 15
    ∧ get_change_size [⟨"src-ui/index.ts", [⟨List.replicate 3 ⟨true, "abcd"⟩⟩]⟩] = 3 := by
  refine ⟨by decide, by decide, by decide, by decide, by decide⟩

/-- Claim C8 fails on the code: a ping request returns 200, but the outbound
trace is not empty: the installation-token exchange runs before the event
type is inspected. -/
theorem C8_counterexample :
    (Secretary.main [] ping_event).1 = 200
    ∧ (Secretary.main [] ping_event).2 ≠ []
    ∧ ApiCall.tokenExchange ∈ (Secretary.main [] ping_event).2 := by
  refine ⟨by decide, by decide, by decide⟩

/-- Claim C8 (amended): for every inbound ping event the handler returns
status 200 and performs no event processing; the only outbound call is the
installation-token exchange, which precedes the event-type check. -/
theorem C8_ping_no_dispatch (members : List String) (ev : Event) (h : ev.event = "ping") :
    (Secretary.main members ev).1 = 200
    ∧ (Secretary.main members ev).2 = [ApiCall.tokenExchange] := by
  constructor
  · rfl
  · simp [Secretary.main, h]

/-- Witness for C8 at the concrete ping event. -/
theorem C8_ping_no_dispatch_witness :
    (Secretary.main [] ping_event).1 = 200
    ∧ (Secretary.main [] ping_event).2 = [ApiCall.tokenExchange] :=
  C8_ping_no_dispatch [] ping_event rfl

/-- Claim C9: bot recognition is substring containment, not exact identity:
any submitter login containing dependabot, paperless-l10n or github-actions
anywhere makes opened_pr return right after the two reads, before any label,
reviewer or comment write is issued. -/
theorem C9_substring_bot_detection (user : String) (members : List String)
    (patch : List FileChange)
    (h : contains_sub user "dependabot" = true ∨ contains_sub user "paperless-l10n" = true
      ∨ contains_sub user "github-actions" = true) :
    opened_pr user members patch = [ApiCall.getPatch, ApiCall.getMembers] := by
  have hb : is_bot_user user = true := by
    unfold is_bot_user
    rcases h with h | h | h <;> simp [h]
  simp [opened_pr, hb]

/-- Witness for C9 at the login my-dependabot-fork. -/
theorem C9_substring_bot_detection_witness :
    opened_pr "my-dependabot-fork" ["alice"] c7_diff = [ApiCall.getPatch, ApiCall.getMembers] :=
  C9_substring_bot_detection "my-dependabot-fork" ["alice"] c7_diff (Or.inl (by decide))

/-- Claim C10: for a file path without a dot the extension expression falls
back to the whole path, so such a file is excluded from the size count
exactly when the entire path is one of rst, md, txt or lock. -/
theorem C10_extension_fallback (path : String) (h : '.' ∉ path.data) :
    ext_of path = path
    ∧ (ext_of path ∈ ignore_types ↔ path ∈ ignore_types)
    ∧ (∀ hunks : List Hunk, path ∈ ignore_types →
        get_change_size [⟨path, hunks⟩] = 0)
    ∧ (∀ hunks : List Hunk, path ∉ ignore_types →
        get_change_size [⟨path, hunks⟩] = (hunks.map hunk_count).sum) := by
  have hext : ext_of path = path := by
    unfold ext_of
    have ht : path.data.reverse.takeWhile (fun c => c != '.') = path.data.reverse := by
      rw [List.takeWhile_eq_self_iff]
      intro x hx
      rw [List.mem_reverse] at hx
      have hne : x ≠ '.' := by
        rintro rfl
        exact h hx
      simp [hne]
    rw [ht, List.reverse_reverse, string_mk_data]
  refine ⟨hext, by rw [hext], ?_, ?_⟩
  · intro hunks hin
    simp [get_change_size_eq, change_count, hext, hin]
  · intro hunks hnin
    simp [get_change_size_eq, change_count, hext, hnin]

/-- Witness for C10 at the paths lock (ignored) and Makefile (counted). -/
theorem C10_extension_fallback_witness :
    ext_of "lock" = "lock"
    ∧ get_change_size [⟨"lock", [⟨[⟨true, "abcd"⟩]⟩]⟩] = 0
    ∧ ext_of "Makefile" = "Makefile"
    ∧ get_change_size [⟨"Makefile", [⟨[⟨true, "abcd"⟩]⟩]⟩] =
        ([(⟨[⟨true, "abcd"⟩]⟩ : Hunk)].map hunk_count).sum :=
  ⟨(C10_extension_fallback "lock" (by decide)).1,
   (C10_extension_fallback "lock" (by decide)).2.2.1 [⟨[⟨true, "abcd"⟩]⟩] (by decide),
   (C10_extension_fallback "Makefile" (by decide)).1,
   (C10_extension_fallback "Makefile" (by decide)).2.2.2 [⟨[⟨true, "abcd"⟩]⟩] (by decide)⟩

end Secretary
